import Mathlib

/-!
Shallow embedding of the atsmanager state-container library.

The library provides four state containers sharing one notification
protocol:
  * `ComponentStateManager` (plain container, `src/components/componentState.ts`),
  * `ProxyStateManager` (change-aware container, `src/components/proxyState.ts`),
  * `GlobalStateManager` (process-wide singleton, `src/components/globalState.ts`),
  * `StateMachine` (finite-state holder, `src/components/stateMachine.ts`).

Listeners are JavaScript function references stored in a `Set`; we model a
listener by a numeric identifier (identifiers model reference identity) and
a `Set` by an insertion-ordered duplicate-free list.  Method calls that
invoke callbacks are modelled as functions returning the updated container
together with the list of callback invocation events, in invocation order.
-/

namespace Atsman

/-- JavaScript `Set.prototype.add`: appends the element unless it is already
present (insertion order, no duplicates). -/
def setAdd (l : List Nat) (x : Nat) : List Nat :=
  if x ∈ l then l else l ++ [x]

theorem mem_setAdd {l : List Nat} {x y : Nat} :
    y ∈ setAdd l x ↔ y ∈ l ∨ y = x := by
  unfold setAdd
  by_cases h : x ∈ l
  · simp only [if_pos h]
    constructor
    · exact Or.inl
    · rintro (hy | rfl) <;> assumption
  · simp [if_neg h]

theorem nodup_setAdd {l : List Nat} {x : Nat} (h : l.Nodup) :
    (setAdd l x).Nodup := by
  unfold setAdd
  by_cases hx : x ∈ l
  · simpa [hx]
  · simp [hx, List.nodup_append, h]

/-- The `SetStateAction<T>` type of `src/index.ts`: either a literal new
value or a function deriving the new value from the previous one.  The
`isFunction` type guard in the source distinguishes the two shapes; the
inductive does the same. -/
inductive SetStateAction (V : Type) where
  | value : V → SetStateAction V
  | func : (V → V) → SetStateAction V

/-- `this.isFunction(action) ? action(prev) : action` — compute the new
state from a `SetStateAction` and the previous state. -/
def applySetStateAction {V : Type} : SetStateAction V → V → V
  | .value v, _ => v
  | .func f, s => f s

/-! ## Plain Container: `ComponentStateManager` (componentState.ts) -/

/-- `ComponentStateManager<T>`: a current value plus a `Set` of
zero-argument listeners. -/
structure ComponentStateManager (V : Type) where
  currentState : V
  listeners : List Nat

namespace ComponentStateManager

/-- `getState` returns the current state. -/
def getState {V : Type} (m : ComponentStateManager V) : V :=
  m.currentState

/-- `setState`: replaces the stored value (applying the action) and then
invokes every registered listener with no arguments.  The returned list of
listener identifiers records the invocations, in iteration order. -/
def setState {V : Type} (m : ComponentStateManager V) (action : SetStateAction V) :
    ComponentStateManager V × List Nat :=
  let s := applySetStateAction action m.currentState
  ({ m with currentState := s }, m.listeners)

/-- `subscribe`: adds the callback to the listener set. -/
def subscribe {V : Type} (m : ComponentStateManager V) (l : Nat) :
    ComponentStateManager V :=
  { m with listeners := setAdd m.listeners l }

/-- The closure returned by `subscribe`: `() => this.listeners.delete(callback)`. -/
def unsubscribe {V : Type} (m : ComponentStateManager V) (l : Nat) :
    ComponentStateManager V :=
  { m with listeners := m.listeners.erase l }

/-- Run a finite sequence of `setState` calls, accumulating the listener
invocation events. -/
def runSets {V : Type} (m : ComponentStateManager V) :
    List (SetStateAction V) → ComponentStateManager V × List Nat
  | [] => (m, [])
  | a :: as =>
      let p := setState m a
      let q := runSets p.1 as
      (q.1, p.2 ++ q.2)

end ComponentStateManager

/-- Written from the spec's words ("the result of folding the sequence's
actions over the initial value"): the fold the Plain Container is claimed
to refine. -/
def specFoldActions {V : Type} (init : V) (as : List (SetStateAction V)) : V :=
  as.foldl (fun s a => applySetStateAction a s) init

/-! ## Change-Aware Container: `ProxyStateManager` (proxyState.ts)

The container compares values by `JSON.stringify`; the operations below
take the serialization function `ser` as an explicit parameter (the
JSON-value instantiation with its concrete `stringify` follows below).
Listener invocations are events `(listener id, value passed)`. -/

/-- The five private fields of `ProxyStateManager<T>`. -/
structure ProxyStateManager (V : Type) where
  state : V
  listeners : List Nat
  isBatchingUpdates : Bool
  pendingNotifications : List Nat
  hasStateChanged : Bool

namespace ProxyStateManager

/-- `getState` returns the current (proxied) state. -/
def getState {V : Type} (m : ProxyStateManager V) : V :=
  m.state

/-- `notifyListeners`: `this.listeners.forEach((listener) => listener(this.state))`. -/
def notifyListeners {V : Type} (m : ProxyStateManager V) : List (Nat × V) :=
  m.listeners.map (fun l => (l, m.state))

/-- `this.listeners.forEach((listener) => this.pendingNotifications.add(listener))`:
queue every currently registered listener, without duplicating already
pending ones. -/
def queueAll {V : Type} (m : ProxyStateManager V) : List Nat :=
  m.listeners.foldl setAdd m.pendingNotifications

/-- `setState`: computes the candidate new state, and only if its
serialization differs from the current one replaces the state (re-wrapped
by `createProxy`, modelled as the value itself) and either notifies
immediately or queues all current listeners when batching. -/
def setState {V : Type} (ser : V → String) (m : ProxyStateManager V)
    (action : SetStateAction V) : ProxyStateManager V × List (Nat × V) :=
  let newState := applySetStateAction action m.state
  if ser m.state ≠ ser newState then
    let m' := { m with state := newState }
    if m.isBatchingUpdates = false then
      (m', notifyListeners m')
    else
      ({ m' with pendingNotifications := queueAll m' }, [])
  else
    (m, [])

/-- `subscribe`: `this.listeners.add(listener)`. -/
def subscribe {V : Type} (m : ProxyStateManager V) (l : Nat) :
    ProxyStateManager V :=
  { m with listeners := setAdd m.listeners l }

/-- `unsubscribe` (the closure returned by `subscribe`):
`this.listeners.delete(listener)`. -/
def unsubscribe {V : Type} (m : ProxyStateManager V) (l : Nat) :
    ProxyStateManager V :=
  { m with listeners := m.listeners.erase l }

/-- `beginBatchUpdates`: `this.isBatchingUpdates = true`. -/
def beginBatchUpdates {V : Type} (m : ProxyStateManager V) :
    ProxyStateManager V :=
  { m with isBatchingUpdates := true }

/-- `endBatchUpdates`: if any notifications are pending, invoke each pending
listener once with the current state and clear the queue; afterwards leave
batching mode. -/
def endBatchUpdates {V : Type} (m : ProxyStateManager V) :
    ProxyStateManager V × List (Nat × V) :=
  if 0 < m.pendingNotifications.length then
    ({ m with pendingNotifications := [], isBatchingUpdates := false },
      m.pendingNotifications.map (fun l => (l, m.state)))
  else
    ({ m with isBatchingUpdates := false }, [])

/-- The scenario of the batching property: `beginBatchUpdates(); setState(a);
setState(b); endBatchUpdates()`, with all events in order. -/
def batchRun {V : Type} (ser : V → String) (m : ProxyStateManager V)
    (a b : SetStateAction V) : ProxyStateManager V × List (Nat × V) :=
  let m1 := beginBatchUpdates m
  let p2 := setState ser m1 a
  let p3 := setState ser p2.1 b
  let p4 := endBatchUpdates p3.1
  (p4.1, p2.2 ++ p3.2 ++ p4.2)

end ProxyStateManager

/-! ### JSON values and the property-write trap

`ProxyStateManager` wraps the state in a `Proxy` whose handler defines only
a `set` trap on the top-level object (`createProxy`).  We instantiate the
state type with a JSON-value tree: primitives and objects with
insertion-ordered fields. -/

/-- A JSON-serializable value: a primitive (modelled by an integer) or an
object, i.e. an ordered association list of fields. -/
inductive JVal where
  | prim : Int → JVal
  | obj : List (String × JVal) → JVal

/-- `JSON.stringify` on `JVal` trees. -/
def JVal.stringify : JVal → String
  | .prim n => toString n
  | .obj fs => "\x7b" ++ fieldsStr fs ++ "\x7d"
where
  fieldsStr : List (String × JVal) → String
  | [] => ""
  | [(k, v)] => "\"" ++ k ++ "\":" ++ v.stringify
  | (k, v) :: rest => "\"" ++ k ++ "\":" ++ v.stringify ++ "," ++ fieldsStr rest

/-- `JSON.stringify` applied to a property read that may yield `undefined`. -/
def stringifyOpt : Option JVal → String
  | none => "undefined"
  | some v => v.stringify

/-- Property read `obj[prop]` on an object's field list (`undefined` when
the key is absent). -/
def getField : List (String × JVal) → String → Option JVal
  | [], _ => none
  | (k', v') :: rest, k => if k' = k then some v' else getField rest k

/-- Property write `obj[prop] = value` on an object's field list: replaces
the existing binding in place, or appends a new one. -/
def setField : List (String × JVal) → String → JVal → List (String × JVal)
  | [], k, v => [(k, v)]
  | (k', v') :: rest, k, v =>
      if k' = k then (k, v) :: rest else (k', v') :: setField rest k v

/-- The raw (un-proxied) write `target.p1.p2.….pn = v`: follows the path of
nested references and updates the final field.  When an intermediate key is
missing or a primitive is reached the write is dropped (the JavaScript
engine would throw before this library sees anything). -/
def setPath : JVal → List String → JVal → JVal
  | s, [], _ => s
  | .obj fs, [p], v => .obj (setField fs p v)
  | .obj fs, p :: q :: rest, v =>
      match getField fs p with
      | some child => .obj (setField fs p (setPath child (q :: rest) v))
      | none => .obj fs
  | .prim n, _, _ => .prim n

namespace ProxyStateManager

/-- A property assignment `manager.getState().p1.….pn = v` on the proxied
state.  Only a write whose target is the top-level object (path of length
one) reaches the handler's `set` trap, which first lands the write and then
compares old and new property values by serialization; a write through a
nested reference is handed the raw inner object by the default `get`
behaviour, so it lands silently — no trap, no change detection, no
notification. -/
def writePath (m : ProxyStateManager JVal) (path : List String) (v : JVal) :
    ProxyStateManager JVal × List (Nat × JVal) :=
  match path, m.state with
  | [p], .obj fs =>
      let oldValue := getField fs p
      let m' := { m with state := JVal.obj (setField fs p v) }
      if stringifyOpt oldValue ≠ v.stringify then
        let m'' := { m' with hasStateChanged := true }
        if m.isBatchingUpdates = false then
          (m'', notifyListeners m'')
        else
          ({ m'' with pendingNotifications := queueAll m'' }, [])
      else
        (m', [])
  | p :: q :: rest, .obj fs =>
      ({ m with state := setPath (.obj fs) (p :: q :: rest) v }, [])
  | _, _ => (m, [])

/-- A mutation step of the Change-Aware Container, for reasoning about
arbitrary operation sequences. -/
inductive Op where
  | set (a : SetStateAction JVal)
  | write (path : List String) (v : JVal)
  | beginBatch
  | endBatch

/-- Execute one mutation step. -/
def applyOp (m : ProxyStateManager JVal) :
    Op → ProxyStateManager JVal × List (Nat × JVal)
  | .set a => setState JVal.stringify m a
  | .write path v => writePath m path v
  | .beginBatch => (beginBatchUpdates m, [])
  | .endBatch => endBatchUpdates m

/-- Execute a sequence of mutation steps, accumulating events. -/
def runOps (m : ProxyStateManager JVal) :
    List Op → ProxyStateManager JVal × List (Nat × JVal)
  | [] => (m, [])
  | op :: rest =>
      let p := applyOp m op
      let q := runOps p.1 rest
      (q.1, p.2 ++ q.2)

end ProxyStateManager

/-! ## Singleton Container: `GlobalStateManager` (globalState.ts)

Both `getInstance` and `resetInstance` construct the instance with
`new GlobalStateManager(initialState || {})`, so the value model must
include JavaScript truthiness.  The static `instance` slot is modelled by
an `Option`, matching the `if (!GlobalStateManager.instance)` check. -/

/-- A JavaScript value as stored in the global container (`any`-typed). -/
inductive GVal where
  | null : GVal
  | undef : GVal
  | bool : Bool → GVal
  | num : Int → GVal
  | str : String → GVal
  | obj : List (String × GVal) → GVal

/-- JavaScript truthiness: `null`, `undefined`, `false`, `0` and `""` are
falsy; every object is truthy. -/
def GVal.falsy : GVal → Bool
  | .null => true
  | .undef => true
  | .bool b => !b
  | .num n => n == 0
  | .str s => s == ""
  | .obj _ => false

/-- `initialState || {}`: the given value if truthy, else a fresh empty
object literal. -/
def orElseEmptyObj (v : GVal) : GVal :=
  if v.falsy then .obj [] else v

/-- The instance fields of `GlobalStateManager<T>`. -/
structure GlobalStateManager where
  currentState : GVal
  listeners : List Nat

namespace GlobalStateManager

/-- The private constructor: stores the initial state, no listeners yet. -/
def mkInstance (initialState : GVal) : GlobalStateManager :=
  { currentState := initialState, listeners := [] }

/-- `getState` returns the current global state. -/
def getState (g : GlobalStateManager) : GVal :=
  g.currentState

/-- Static `getInstance(initialState?)`: constructs the singleton with
`initialState || {}` when the static slot is unset, else returns the
existing instance, ignoring the argument.  Result: the returned instance
and the updated static slot. -/
def getInstance (slot : Option GlobalStateManager) (initialState : GVal) :
    GlobalStateManager × Option GlobalStateManager :=
  match slot with
  | none =>
      let g := mkInstance (orElseEmptyObj initialState)
      (g, some g)
  | some g => (g, some g)

/-- Static `resetInstance(initialState)`: unconditionally replaces the
static slot with a freshly constructed instance. -/
def resetInstance (initialState : GVal) : Option GlobalStateManager :=
  some (mkInstance (orElseEmptyObj initialState))

/-- `setState`: replaces the current state and notifies every listener with
the new state. -/
def setState (g : GlobalStateManager) (action : SetStateAction GVal) :
    GlobalStateManager × List (Nat × GVal) :=
  let s := applySetStateAction action g.currentState
  ({ g with currentState := s }, g.listeners.map (fun l => (l, s)))

/-- `subscribe`: adds the callback to the listener set. -/
def subscribe (g : GlobalStateManager) (l : Nat) : GlobalStateManager :=
  { g with listeners := setAdd g.listeners l }

/-- The closure returned by `subscribe`: `() => this.listeners.delete(callback)`. -/
def unsubscribe (g : GlobalStateManager) (l : Nat) : GlobalStateManager :=
  { g with listeners := g.listeners.erase l }

/-- An operation on the singleton instance: a state update or a new
subscription. -/
inductive Op where
  | set (a : SetStateAction GVal)
  | sub (l : Nat)

/-- Execute one operation. -/
def applyOp (g : GlobalStateManager) : Op → GlobalStateManager × List (Nat × GVal)
  | .set a => setState g a
  | .sub l => (subscribe g l, [])

/-- Execute a sequence of operations, accumulating notification events. -/
def runOps (g : GlobalStateManager) :
    List Op → GlobalStateManager × List (Nat × GVal)
  | [] => (g, [])
  | op :: rest =>
      let p := applyOp g op
      let q := runOps p.1 rest
      (q.1, p.2 ++ q.2)

end GlobalStateManager

/-! ## Finite-State Holder: `StateMachine` (stateMachine.ts)

A `machineState` is `{name, onEnter?, onExit?}`; `this.states.includes`
compares state objects by reference, so each state object carries an
identifier modelling its reference identity — two distinct objects with the
same name have different identifiers.  Callback invocations are events
paired with the value of `this.currentState` at the moment the callback
runs. -/

/-- A `machineState` object: reference identity, name, and whether the
optional `onEnter` / `onExit` callbacks are present. -/
structure MState where
  id : Nat
  name : String
  hasOnEnter : Bool
  hasOnExit : Bool
deriving DecidableEq, Repr

/-- A callback invocation of the finite-state holder. -/
inductive SMEvt where
  | enter : MState → SMEvt
  | exit : MState → SMEvt
deriving DecidableEq, Repr

/-- `this.currentState.onEnter?.()` — an `enter` event when the callback is
present, observed with `this.currentState = cur` at invocation time. -/
def enterEvents (s : MState) (cur : MState) : List (SMEvt × MState) :=
  if s.hasOnEnter then [(.enter s, cur)] else []

/-- `this.currentState.onExit?.()` — an `exit` event when the callback is
present, observed with `this.currentState = cur` at invocation time. -/
def exitEvents (s : MState) (cur : MState) : List (SMEvt × MState) :=
  if s.hasOnExit then [(.exit s, cur)] else []

/-- The fields of `StateMachine`. -/
structure StateMachine where
  states : List MState
  currentState : MState

namespace StateMachine

/-- The constructor: rejects an empty state list, else makes the first
entry current and runs its `onEnter`. -/
def mkStateMachine (states : List MState) :
    Except String (StateMachine × List (SMEvt × MState)) :=
  match states with
  | [] => .error "StateMachine must be initialized with at least one machine state."
  | s0 :: rest => .ok (⟨s0 :: rest, s0⟩, enterEvents s0 s0)

/-- `getCurrentState` returns the current state object. -/
def getCurrentState (m : StateMachine) : MState :=
  m.currentState

/-- `transitionTo(newState)`: if `newState` is (by identity) in the state
list, run the current state's `onExit` (current pointer still the old
state), update the pointer, then run `newState`'s `onEnter`; otherwise
throw, leaving the machine untouched. -/
def transitionTo (m : StateMachine) (newState : MState) :
    Except String (StateMachine × List (SMEvt × MState)) :=
  if newState ∈ m.states then
    .ok ({ m with currentState := newState },
      exitEvents m.currentState m.currentState ++ enterEvents newState newState)
  else
    .error ("Invalid state: " ++ newState.name)

/-- Run a sequence of `transitionTo` calls; a throwing call leaves the
machine unchanged (the caller catches and continues). -/
def runTransitions (m : StateMachine) : List MState → StateMachine
  | [] => m
  | t :: ts =>
      match transitionTo m t with
      | .ok (m', _) => runTransitions m' ts
      | .error _ => runTransitions m ts

end StateMachine

/-! ## Helper lemmas -/

theorem foldl_setAdd_mem {L p : List Nat} {y : Nat} :
    y ∈ L.foldl setAdd p ↔ y ∈ p ∨ y ∈ L := by
  induction L generalizing p with
  | nil => simp
  | cons x L ih =>
      rw [List.foldl_cons, ih]
      rw [mem_setAdd]
      simp only [List.mem_cons]
      tauto

theorem foldl_setAdd_nodup {L p : List Nat} (hp : p.Nodup) :
    (L.foldl setAdd p).Nodup := by
  induction L generalizing p with
  | nil => exact hp
  | cons x L ih => exact ih (nodup_setAdd hp)

theorem foldl_setAdd_of_subset {L p : List Nat} (h : ∀ x ∈ L, x ∈ p) :
    L.foldl setAdd p = p := by
  induction L generalizing p with
  | nil => rfl
  | cons x L ih =>
      have hx : x ∈ p := h x (by simp)
      rw [List.foldl_cons]
      unfold setAdd
      rw [if_pos hx]
      exact ih (fun y hy => h y (by simp [hy]))

theorem setAdd_of_not_mem {l : List Nat} {x : Nat} (h : x ∉ l) :
    setAdd l x = l ++ [x] := if_neg h

theorem foldl_setAdd_disjoint {L p : List Nat} (hL : L.Nodup)
    (hd : ∀ x ∈ L, x ∉ p) : L.foldl setAdd p = p ++ L := by
  induction L generalizing p with
  | nil => simp
  | cons x L ih =>
      have hx : x ∉ p := hd x (by simp)
      have hdis : ∀ y ∈ L, y ∉ p ++ [x] := by
        intro y hy
        simp only [List.mem_append, List.mem_singleton]
        rintro (hyp | rfl)
        · exact hd y (by simp [hy]) hyp
        · exact (List.nodup_cons.mp hL).1 hy
      rw [List.foldl_cons, setAdd_of_not_mem hx, ih (List.Nodup.of_cons hL) hdis]
      simp

theorem foldl_setAdd_nil {L : List Nat} (hL : L.Nodup) :
    L.foldl setAdd [] = L := by
  rw [foldl_setAdd_disjoint hL (fun x _ => List.not_mem_nil x)]
  simp

theorem endBatchUpdates_eq {V : Type} (m : ProxyStateManager V) :
    ProxyStateManager.endBatchUpdates m =
      ({ m with pendingNotifications := [], isBatchingUpdates := false },
        m.pendingNotifications.map (fun l => (l, m.state))) := by
  obtain ⟨st, ls, ib, pd, hc⟩ := m
  cases pd <;> simp [ProxyStateManager.endBatchUpdates]

theorem count_pair_map {L : List Nat} {V : Type} {v : V} {x : Nat} :
    ((L.map (fun y => (y, v))).map Prod.fst).count x = L.count x := by
  simp [List.map_map, Function.comp_def]

/-! ## C8: the Plain Container refines the fold of its actions -/

/-- Claim C8: for every initial value and every finite sequence of `set`
calls on the Plain Container, `get()` after the sequence equals the fold of
the actions over the initial value. -/
theorem C8_plain_fold {V : Type} (m : ComponentStateManager V)
    (as : List (SetStateAction V)) :
    (ComponentStateManager.runSets m as).1.getState =
      specFoldActions m.currentState as := by
  induction as generalizing m with
  | nil => rfl
  | cons a as ih =>
      simp only [ComponentStateManager.runSets, ComponentStateManager.setState]
      rw [ih]
      rfl

/-! ## C4: invalid transition targets are rejected by identity -/

/-- Claim C4: for every transition target that is not (by identity) a
member of the collection supplied at construction, `transitionTo` fails
with an error naming the rejected state, and the current state is left
unchanged.  Membership is identity within the original collection — the
witness below rejects a distinct state object whose name matches a
member's. -/
theorem C4_invalid_transition (m : StateMachine) (target : MState)
    (h : target ∉ m.states) :
    StateMachine.transitionTo m target =
        .error ("Invalid state: " ++ target.name) ∧
      StateMachine.runTransitions m [target] = m := by
  constructor
  · simp [StateMachine.transitionTo, h]
  · simp [StateMachine.runTransitions, StateMachine.transitionTo, h]

/-- Witness for C4: a machine over the single state `⟨0, "A"⟩`; the
distinct object `⟨1, "A"⟩` carries the same name but is rejected, and the
machine is unchanged. -/
theorem C4_witness :
    (MState.mk 1 "A" false false ∉ [MState.mk 0 "A" false false]) ∧
      (MState.mk 1 "A" false false).name = (MState.mk 0 "A" false false).name ∧
      (StateMachine.transitionTo
          ⟨[MState.mk 0 "A" false false], MState.mk 0 "A" false false⟩
          (MState.mk 1 "A" false false) =
          .error ("Invalid state: " ++ (MState.mk 1 "A" false false).name) ∧
        StateMachine.runTransitions
            ⟨[MState.mk 0 "A" false false], MState.mk 0 "A" false false⟩
            [MState.mk 1 "A" false false] =
          ⟨[MState.mk 0 "A" false false], MState.mk 0 "A" false false⟩) :=
  ⟨by decide, rfl, C4_invalid_transition _ _ (by decide)⟩

/-! ## C5: construction enters the first state; transitions exit then enter -/

/-- Claim C5: constructing with a non-empty collection makes the first
entry current and runs its `onEnter` exactly once; a successful
`transitionTo` runs the old state's `onExit` (observing the old current
state) and then the target's `onEnter` (observing the already-updated
current state), and `getCurrentState` returns the target afterwards. -/
theorem C5_construction_and_transition (s0 : MState) (rest : List MState)
    (m : StateMachine) (target : MState) (ht : target ∈ m.states) :
    (StateMachine.mkStateMachine (s0 :: rest) =
        .ok ({ states := s0 :: rest, currentState := s0 },
          if s0.hasOnEnter then [(SMEvt.enter s0, s0)] else []) ∧
      (s0.hasOnEnter = true →
        ((if s0.hasOnEnter then [(SMEvt.enter s0, s0)] else []).count
            (SMEvt.enter s0, s0)) = 1)) ∧
    (StateMachine.transitionTo m target =
        .ok ({ states := m.states, currentState := target },
          (if m.currentState.hasOnExit
            then [(SMEvt.exit m.currentState, m.currentState)] else []) ++
          (if target.hasOnEnter then [(SMEvt.enter target, target)] else [])) ∧
      StateMachine.getCurrentState { states := m.states, currentState := target } =
        target) := by
  refine ⟨⟨?_, ?_⟩, ?_, rfl⟩
  · simp [StateMachine.mkStateMachine, enterEvents]
  · intro h
    simp [h]
  · simp [StateMachine.transitionTo, ht, enterEvents, exitEvents]

/-- Witness for C5: two states `A` and `B` with both callbacks present;
construction with `[A, B]` enters `A` once, and `transitionTo B` exits `A`
and then enters `B`. -/
theorem C5_witness :
    (MState.mk 1 "B" true true ∈
        [MState.mk 0 "A" true true, MState.mk 1 "B" true true]) ∧
    (StateMachine.mkStateMachine
          [MState.mk 0 "A" true true, MState.mk 1 "B" true true] =
        .ok ({ states := [MState.mk 0 "A" true true, MState.mk 1 "B" true true],
               currentState := MState.mk 0 "A" true true },
          [(SMEvt.enter (MState.mk 0 "A" true true), MState.mk 0 "A" true true)]) ∧
      StateMachine.transitionTo
          { states := [MState.mk 0 "A" true true, MState.mk 1 "B" true true],
            currentState := MState.mk 0 "A" true true }
          (MState.mk 1 "B" true true) =
        .ok ({ states := [MState.mk 0 "A" true true, MState.mk 1 "B" true true],
               currentState := MState.mk 1 "B" true true },
          [(SMEvt.exit (MState.mk 0 "A" true true), MState.mk 0 "A" true true),
            (SMEvt.enter (MState.mk 1 "B" true true), MState.mk 1 "B" true true)])) := by
  refine ⟨by decide, ?_, ?_⟩
  · exact ((C5_construction_and_transition (MState.mk 0 "A" true true)
      [MState.mk 1 "B" true true]
      { states := [MState.mk 0 "A" true true, MState.mk 1 "B" true true],
        currentState := MState.mk 0 "A" true true }
      (MState.mk 1 "B" true true) (by decide)).1).1
  · exact ((C5_construction_and_transition (MState.mk 0 "A" true true)
      [MState.mk 1 "B" true true]
      { states := [MState.mk 0 "A" true true, MState.mk 1 "B" true true],
        currentState := MState.mk 0 "A" true true }
      (MState.mk 1 "B" true true) (by decide)).2).1

/-! ## C6: the current state stays inside the fixed state set -/

theorem runTransitions_states (m : StateMachine) (ts : List MState) :
    (StateMachine.runTransitions m ts).states = m.states := by
  induction ts generalizing m with
  | nil => rfl
  | cons t ts ih =>
      simp only [StateMachine.runTransitions, StateMachine.transitionTo]
      by_cases h : t ∈ m.states
      · rw [if_pos h]
        exact ih _
      · rw [if_neg h]
        exact ih _

theorem runTransitions_current_mem (m : StateMachine) (ts : List MState)
    (h : m.currentState ∈ m.states) :
    (StateMachine.runTransitions m ts).currentState ∈
      (StateMachine.runTransitions m ts).states := by
  induction ts generalizing m with
  | nil => exact h
  | cons t ts ih =>
      simp only [StateMachine.runTransitions, StateMachine.transitionTo]
      by_cases hm : t ∈ m.states
      · rw [if_pos hm]
        exact ih _ hm
      · rw [if_neg hm]
        exact ih _ h

/-- Claim C6: after construction and after every sequence of
`transitionTo` calls (successful or failing), the current state is a
member of the collection supplied at construction. -/
theorem C6_current_state_membership (states : List MState)
    (m : StateMachine) (evts : List (SMEvt × MState))
    (h : StateMachine.mkStateMachine states = .ok (m, evts))
    (ts : List MState) :
    StateMachine.getCurrentState (StateMachine.runTransitions m ts) ∈ states := by
  cases states with
  | nil => simp [StateMachine.mkStateMachine] at h
  | cons s0 rest =>
      simp only [StateMachine.mkStateMachine, Except.ok.injEq, Prod.mk.injEq] at h
      obtain ⟨hm, -⟩ := h
      have hcur : m.currentState ∈ m.states := by
        rw [← hm]
        exact List.mem_cons_self s0 rest
      have := runTransitions_current_mem m ts hcur
      rw [runTransitions_states] at this
      rw [← hm] at this ⊢
      exact this

/-- Witness for C6: a two-state machine driven through a successful, a
failing, and another successful transition stays inside its state set. -/
theorem C6_witness :
    (StateMachine.mkStateMachine
        [MState.mk 0 "A" false false, MState.mk 1 "B" false false] =
      .ok ({ states := [MState.mk 0 "A" false false, MState.mk 1 "B" false false],
             currentState := MState.mk 0 "A" false false }, [])) ∧
    StateMachine.getCurrentState
        (StateMachine.runTransitions
          { states := [MState.mk 0 "A" false false, MState.mk 1 "B" false false],
            currentState := MState.mk 0 "A" false false }
          [MState.mk 1 "B" false false, MState.mk 2 "C" false false,
            MState.mk 0 "A" false false]) ∈
      [MState.mk 0 "A" false false, MState.mk 1 "B" false false] :=
  ⟨rfl,
    C6_current_state_membership
      [MState.mk 0 "A" false false, MState.mk 1 "B" false false]
      { states := [MState.mk 0 "A" false false, MState.mk 1 "B" false false],
        currentState := MState.mk 0 "A" false false }
      [] rfl
      [MState.mk 1 "B" false false, MState.mk 2 "C" false false,
        MState.mk 0 "A" false false]⟩

/-! ## C1: change detection of `setState` -/

/-- Claim C1: a `set` whose value serializes identically to the current
state invokes no listener and leaves the stored state unchanged; a `set`
whose value serializes differently (outside batching) invokes every
currently subscribed listener exactly once with the new state, and nobody
else. -/
theorem C1_set_change_detection {V : Type} (ser : V → String)
    (m : ProxyStateManager V) (a : SetStateAction V)
    (hnd : m.listeners.Nodup) :
    (ser m.state = ser (applySetStateAction a m.state) →
      ProxyStateManager.setState ser m a = (m, [])) ∧
    (ser m.state ≠ ser (applySetStateAction a m.state) →
      m.isBatchingUpdates = false →
      (ProxyStateManager.setState ser m a).1.state =
          applySetStateAction a m.state ∧
        (∀ l ∈ m.listeners,
          (((ProxyStateManager.setState ser m a).2.map Prod.fst).count l) = 1) ∧
        (∀ e ∈ (ProxyStateManager.setState ser m a).2,
          e.1 ∈ m.listeners ∧ e.2 = applySetStateAction a m.state)) := by
  constructor
  · intro heq
    simp [ProxyStateManager.setState, heq]
  · intro hne hb
    simp only [ProxyStateManager.setState, ProxyStateManager.notifyListeners,
      if_pos hne, hb, eq_self_iff_true, if_true]
    refine ⟨trivial, ?_, ?_⟩
    · intro l hl
      rw [count_pair_map]
      exact List.count_eq_one_of_mem hnd hl
    · intro e he
      simp only [List.mem_map] at he
      obtain ⟨l, hl, rfl⟩ := he
      exact ⟨hl, rfl⟩

/-- Witness for C1: over `Nat` states with `toString` serialization, a
no-op `set(0)` on state `0` returns the container unchanged with no
events, and `set(1)` notifies the one subscribed listener `7` exactly once
with `1`. -/
theorem C1_witness :
    ([7] : List Nat).Nodup ∧
    ProxyStateManager.setState toString
        (⟨0, [7], false, [], false⟩ : ProxyStateManager Nat)
        (SetStateAction.value 0) = (⟨0, [7], false, [], false⟩, []) ∧
    ((ProxyStateManager.setState toString
          (⟨0, [7], false, [], false⟩ : ProxyStateManager Nat)
          (SetStateAction.value 1)).1.state = 1 ∧
      (∀ l ∈ ([7] : List Nat),
        (((ProxyStateManager.setState toString
            (⟨0, [7], false, [], false⟩ : ProxyStateManager Nat)
            (SetStateAction.value 1)).2.map Prod.fst).count l) = 1) ∧
      (∀ e ∈ (ProxyStateManager.setState toString
          (⟨0, [7], false, [], false⟩ : ProxyStateManager Nat)
          (SetStateAction.value 1)).2,
        e.1 ∈ ([7] : List Nat) ∧ e.2 = 1)) :=
  ⟨by decide,
    (C1_set_change_detection toString ⟨0, [7], false, [], false⟩
      (SetStateAction.value 0) (by decide)).1 rfl,
    (C1_set_change_detection toString ⟨0, [7], false, [], false⟩
      (SetStateAction.value 1) (by decide)).2 (by decide) rfl⟩

/-! ## C2: the batching scenario notifies once with the last state -/

/-- Claim C2: `beginBatchUpdates(); set(a); set(b); endBatchUpdates()`,
with both sets changing the serialized state, invokes each listener
subscribed during the batch exactly once, with the state reflecting `b`;
afterwards the pending queue is empty and batching is off. -/
theorem C2_batching {V : Type} (ser : V → String)
    (m : ProxyStateManager V) (a b : SetStateAction V)
    (hnd : m.listeners.Nodup)
    (hpend : m.pendingNotifications = [])
    (ha : ser m.state ≠ ser (applySetStateAction a m.state))
    (hb : ser (applySetStateAction a m.state) ≠
      ser (applySetStateAction b (applySetStateAction a m.state))) :
    (ProxyStateManager.batchRun ser m a b).1.state =
        applySetStateAction b (applySetStateAction a m.state) ∧
      (ProxyStateManager.batchRun ser m a b).1.pendingNotifications = [] ∧
      (ProxyStateManager.batchRun ser m a b).1.isBatchingUpdates = false ∧
      (∀ l ∈ m.listeners,
        (((ProxyStateManager.batchRun ser m a b).2.map Prod.fst).count l) = 1) ∧
      (∀ e ∈ (ProxyStateManager.batchRun ser m a b).2,
        e.1 ∈ m.listeners ∧
          e.2 = applySetStateAction b (applySetStateAction a m.state)) := by
  have h2 : ProxyStateManager.setState ser (ProxyStateManager.beginBatchUpdates m) a =
      ({ m with
          state := applySetStateAction a m.state,
          isBatchingUpdates := true,
          pendingNotifications := m.listeners }, []) := by
    simp only [ProxyStateManager.setState, ProxyStateManager.beginBatchUpdates,
      ProxyStateManager.queueAll, if_pos ha]
    rw [if_neg (by simp)]
    rw [hpend, foldl_setAdd_nil hnd]
  have h3 : ProxyStateManager.setState ser
      ({ m with
          state := applySetStateAction a m.state,
          isBatchingUpdates := true,
          pendingNotifications := m.listeners } : ProxyStateManager V) b =
      ({ m with
          state := applySetStateAction b (applySetStateAction a m.state),
          isBatchingUpdates := true,
          pendingNotifications := m.listeners }, []) := by
    simp only [ProxyStateManager.setState, ProxyStateManager.queueAll, if_pos hb]
    rw [if_neg (by simp)]
    rw [foldl_setAdd_of_subset (fun x hx => hx)]
  have h4 := endBatchUpdates_eq
    ({ m with
        state := applySetStateAction b (applySetStateAction a m.state),
        isBatchingUpdates := true,
        pendingNotifications := m.listeners } : ProxyStateManager V)
  simp only [ProxyStateManager.batchRun, h2, h3, h4]
  refine ⟨trivial, trivial, trivial, ?_, ?_⟩
  · intro l hl
    simp only [List.nil_append]
    rw [count_pair_map]
    exact List.count_eq_one_of_mem hnd hl
  · intro e he
    simp only [List.nil_append, List.mem_map] at he
    obtain ⟨l, hl, rfl⟩ := he
    exact ⟨hl, rfl⟩

/-- Witness for C2: listeners `1` and `2` subscribed, batch with
`set(5); set(9)` starting from state `0`: each listener is notified once
with `9`, the queue is empty and batching is off afterwards. -/
theorem C2_witness :
    ([1, 2] : List Nat).Nodup ∧
    ((ProxyStateManager.batchRun toString
          (⟨0, [1, 2], false, [], false⟩ : ProxyStateManager Nat)
          (SetStateAction.value 5) (SetStateAction.value 9)).1.state = 9 ∧
      (ProxyStateManager.batchRun toString
          (⟨0, [1, 2], false, [], false⟩ : ProxyStateManager Nat)
          (SetStateAction.value 5) (SetStateAction.value 9)).1.pendingNotifications = [] ∧
      (ProxyStateManager.batchRun toString
          (⟨0, [1, 2], false, [], false⟩ : ProxyStateManager Nat)
          (SetStateAction.value 5) (SetStateAction.value 9)).1.isBatchingUpdates = false ∧
      (∀ l ∈ ([1, 2] : List Nat),
        (((ProxyStateManager.batchRun toString
            (⟨0, [1, 2], false, [], false⟩ : ProxyStateManager Nat)
            (SetStateAction.value 5) (SetStateAction.value 9)).2.map Prod.fst).count l) = 1) ∧
      (∀ e ∈ (ProxyStateManager.batchRun toString
          (⟨0, [1, 2], false, [], false⟩ : ProxyStateManager Nat)
          (SetStateAction.value 5) (SetStateAction.value 9)).2,
        e.1 ∈ ([1, 2] : List Nat) ∧ e.2 = 9)) :=
  ⟨by decide,
    C2_batching toString ⟨0, [1, 2], false, [], false⟩
      (SetStateAction.value 5) (SetStateAction.value 9)
      (by decide) rfl (by decide) (by decide)⟩

/-! ## C10: flush notifies exactly the pending queue -/

/-- Claim C10: `endBatchUpdates` notifies exactly the queue of listeners
pending at flush time; a listener subscribed during the batch after the
last state-changing mutation is absent from the queue and gets nothing; a
listener queued by a state-changing mutation and then unsubscribed is
still invoked once; a state-changing mutation during batching queues
precisely the listeners registered at that moment (on top of the existing
queue) and emits nothing, while non-changing mutations, `subscribe` and
`unsubscribe` leave the queue untouched. -/
theorem C10_flush_pending {V : Type} (ser : V → String)
    (m : ProxyStateManager V) (a : SetStateAction V) (l : Nat) :
    (ProxyStateManager.endBatchUpdates m =
      ({ m with pendingNotifications := [], isBatchingUpdates := false },
        m.pendingNotifications.map (fun x => (x, m.state)))) ∧
    (l ∉ m.pendingNotifications →
      ∀ v, (l, v) ∉
        (ProxyStateManager.endBatchUpdates (ProxyStateManager.subscribe m l)).2) ∧
    (l ∈ m.pendingNotifications → m.pendingNotifications.Nodup →
      (((ProxyStateManager.endBatchUpdates
            (ProxyStateManager.unsubscribe m l)).2.map Prod.fst).count l = 1 ∧
        ∀ e ∈ (ProxyStateManager.endBatchUpdates
            (ProxyStateManager.unsubscribe m l)).2, e.2 = m.state)) ∧
    (m.isBatchingUpdates = true →
      (ser m.state ≠ ser (applySetStateAction a m.state) →
        (ProxyStateManager.setState ser m a).2 = [] ∧
        ∀ x, x ∈ (ProxyStateManager.setState ser m a).1.pendingNotifications ↔
          x ∈ m.pendingNotifications ∨ x ∈ m.listeners) ∧
      (ser m.state = ser (applySetStateAction a m.state) →
        (ProxyStateManager.setState ser m a).1.pendingNotifications =
          m.pendingNotifications)) ∧
    ((ProxyStateManager.subscribe m l).pendingNotifications =
        m.pendingNotifications ∧
      (ProxyStateManager.unsubscribe m l).pendingNotifications =
        m.pendingNotifications) := by
  refine ⟨endBatchUpdates_eq m, ?_, ?_, ?_, rfl, rfl⟩
  · intro hl v
    rw [endBatchUpdates_eq]
    simp only [ProxyStateManager.subscribe, List.mem_map, Prod.mk.injEq]
    rintro ⟨x, hx, rfl, -⟩
    exact hl hx
  · intro hl hnd
    rw [endBatchUpdates_eq]
    constructor
    · simp only [ProxyStateManager.unsubscribe]
      rw [count_pair_map]
      exact List.count_eq_one_of_mem hnd hl
    · intro e he
      simp only [ProxyStateManager.unsubscribe, List.mem_map] at he
      obtain ⟨x, hx, rfl⟩ := he
      rfl
  · intro hbatch
    constructor
    · intro hne
      simp only [ProxyStateManager.setState, ProxyStateManager.queueAll,
        if_pos hne, hbatch]
      rw [if_neg (by simp)]
      exact ⟨rfl, fun x => foldl_setAdd_mem⟩
    · intro heq
      simp [ProxyStateManager.setState, heq]

/-- Witness for C10: queue `[2]`, listeners `[2, 3]`, batching on, state
`0`: flushing notifies exactly listener `2` with `0`; subscribing `5` right
before the flush yields it nothing; unsubscribing `2` before the flush
still notifies it once; a changing `set(1)` queues listeners `2` and `3`
and emits nothing. -/
theorem C10_witness :
    (ProxyStateManager.endBatchUpdates
        (⟨0, [2, 3], true, [2], false⟩ : ProxyStateManager Nat) =
      (⟨0, [2, 3], false, [], false⟩, [(2, 0)])) ∧
    (∀ v, ((5 : Nat), v) ∉
      (ProxyStateManager.endBatchUpdates (ProxyStateManager.subscribe
        (⟨0, [2, 3], true, [2], false⟩ : ProxyStateManager Nat) 5)).2) ∧
    (((ProxyStateManager.endBatchUpdates (ProxyStateManager.unsubscribe
          (⟨0, [2, 3], true, [2], false⟩ : ProxyStateManager Nat) 2)).2.map
        Prod.fst).count 2 = 1) ∧
    ((ProxyStateManager.setState toString
        (⟨0, [2, 3], true, [2], false⟩ : ProxyStateManager Nat)
        (SetStateAction.value 1)).2 = [] ∧
      ∀ x, x ∈ (ProxyStateManager.setState toString
          (⟨0, [2, 3], true, [2], false⟩ : ProxyStateManager Nat)
          (SetStateAction.value 1)).1.pendingNotifications ↔
        x ∈ ([2] : List Nat) ∨ x ∈ ([2, 3] : List Nat)) :=
  ⟨(C10_flush_pending toString ⟨0, [2, 3], true, [2], false⟩
      (SetStateAction.value 1) 5).1,
    ((C10_flush_pending toString ⟨0, [2, 3], true, [2], false⟩
      (SetStateAction.value 1) 5).2.1 (by decide)),
    (((C10_flush_pending toString ⟨0, [2, 3], true, [2], false⟩
      (SetStateAction.value 1) 2).2.2.1 (by decide) (by decide)).1),
    (((C10_flush_pending toString ⟨0, [2, 3], true, [2], false⟩
      (SetStateAction.value 1) 2).2.2.2.1 rfl).1 (by decide))⟩

/-! ## C3: which property writes are intercepted -/

/-- Counterexample to C3: on the state `{a: {b: 0}}` with listener `0`
subscribed and batching off, the nested assignment `state.a.b = 1` changes
the serialized state but invokes no listener — writes through nested
references bypass the top-level `set` trap. -/
theorem C3_counterexample :
    (ProxyStateManager.writePath
        (⟨JVal.obj [("a", JVal.obj [("b", JVal.prim 0)])], [0], false, [], false⟩ :
          ProxyStateManager JVal)
        ["a", "b"] (JVal.prim 1)).2 = [] ∧
    (ProxyStateManager.writePath
        (⟨JVal.obj [("a", JVal.obj [("b", JVal.prim 0)])], [0], false, [], false⟩ :
          ProxyStateManager JVal)
        ["a", "b"] (JVal.prim 1)).1.state =
      JVal.obj [("a", JVal.obj [("b", JVal.prim 1)])] ∧
    JVal.stringify (JVal.obj [("a", JVal.obj [("b", JVal.prim 1)])]) ≠
      JVal.stringify (JVal.obj [("a", JVal.obj [("b", JVal.prim 0)])]) := by
  refine ⟨rfl, rfl, ?_⟩
  simp only [JVal.stringify, JVal.stringify.fieldsStr]
  decide

/-- Claim C3 amended: only assignments to top-level properties of the
wrapped object are intercepted — the write lands and, outside batching,
listeners are notified exactly when the property's serialized value
differs from the prior one; an assignment reached through a nested
reference lands on the raw inner object with no interception and no
notification, whether or not the serialized value differs. -/
theorem C3_amended (m : ProxyStateManager JVal) (fs : List (String × JVal))
    (p q : String) (rest : List String) (v : JVal)
    (hm : m.state = JVal.obj fs) (hnd : m.listeners.Nodup)
    (hb : m.isBatchingUpdates = false) :
    ((ProxyStateManager.writePath m [p] v).1.state =
        JVal.obj (setField fs p v) ∧
      (stringifyOpt (getField fs p) ≠ v.stringify →
        (∀ l ∈ m.listeners,
          (((ProxyStateManager.writePath m [p] v).2.map Prod.fst).count l) = 1) ∧
        (∀ e ∈ (ProxyStateManager.writePath m [p] v).2,
          e.1 ∈ m.listeners ∧ e.2 = JVal.obj (setField fs p v))) ∧
      (stringifyOpt (getField fs p) = v.stringify →
        (ProxyStateManager.writePath m [p] v).2 = [])) ∧
    (ProxyStateManager.writePath m (p :: q :: rest) v =
      ({ m with state := setPath (JVal.obj fs) (p :: q :: rest) v }, [])) := by
  obtain ⟨st, ls, ib, pd, hc⟩ := m
  simp only at hm hb hnd
  subst hm hb
  refine ⟨⟨?_, ?_, ?_⟩, rfl⟩
  · simp only [ProxyStateManager.writePath, if_true]
    by_cases h : stringifyOpt (getField fs p) ≠ v.stringify
    · rw [if_pos h]
    · rw [if_neg h]
  · intro h
    simp only [ProxyStateManager.writePath, if_true, if_pos h]
    constructor
    · intro l hl
      simp only [ProxyStateManager.notifyListeners]
      rw [count_pair_map]
      exact List.count_eq_one_of_mem hnd hl
    · intro e he
      simp only [ProxyStateManager.notifyListeners, List.mem_map] at he
      obtain ⟨l, hl, rfl⟩ := he
      exact ⟨hl, rfl⟩
  · intro h
    simp only [ProxyStateManager.writePath, if_true]
    rw [if_neg (not_ne_iff.mpr h)]

/-- Witness for C3: on `{a: 0}` with listener `4` subscribed, the
top-level write `state.a = 1` notifies listener `4` once with `{a: 1}`,
while the no-op write `state.a = 0` notifies nobody. -/
theorem C3_witness :
    (JVal.obj [("a", JVal.prim 0)] = JVal.obj [("a", JVal.prim 0)]) ∧
    (∀ l ∈ ([4] : List Nat),
      (((ProxyStateManager.writePath
          (⟨JVal.obj [("a", JVal.prim 0)], [4], false, [], false⟩ :
            ProxyStateManager JVal)
          ["a"] (JVal.prim 1)).2.map Prod.fst).count l) = 1) ∧
    (∀ e ∈ (ProxyStateManager.writePath
        (⟨JVal.obj [("a", JVal.prim 0)], [4], false, [], false⟩ :
          ProxyStateManager JVal)
        ["a"] (JVal.prim 1)).2,
      e.1 ∈ ([4] : List Nat) ∧
        e.2 = JVal.obj (setField [("a", JVal.prim 0)] "a" (JVal.prim 1))) ∧
    (ProxyStateManager.writePath
        (⟨JVal.obj [("a", JVal.prim 0)], [4], false, [], false⟩ :
          ProxyStateManager JVal)
        ["a"] (JVal.prim 0)).2 = [] := by
  have h1 := C3_amended
    (⟨JVal.obj [("a", JVal.prim 0)], [4], false, [], false⟩ : ProxyStateManager JVal)
    [("a", JVal.prim 0)] "a" "b" [] (JVal.prim 1) rfl (by decide) rfl
  have h0 := C3_amended
    (⟨JVal.obj [("a", JVal.prim 0)], [4], false, [], false⟩ : ProxyStateManager JVal)
    [("a", JVal.prim 0)] "a" "b" [] (JVal.prim 0) rfl (by decide) rfl
  refine ⟨rfl, ?_, ?_, ?_⟩
  · exact (h1.1.2.1 (by
      simp only [getField, stringifyOpt, JVal.stringify, eq_self_iff_true, if_true]
      decide)).1
  · exact (h1.1.2.1 (by
      simp only [getField, stringifyOpt, JVal.stringify, eq_self_iff_true, if_true]
      decide)).2
  · exact h0.1.2.2 (by
      simp only [getField, stringifyOpt, JVal.stringify, eq_self_iff_true, if_true])

/-! ## C7: `resetInstance` reseeds the singleton and drops listeners -/

theorem GlobalStateManager.runOps_not_subscribed (g : GlobalStateManager)
    (l : Nat) (ops : List GlobalStateManager.Op)
    (hg : l ∉ g.listeners) (hl : GlobalStateManager.Op.sub l ∉ ops) :
    l ∉ (GlobalStateManager.runOps g ops).1.listeners ∧
      ∀ v, (l, v) ∉ (GlobalStateManager.runOps g ops).2 := by
  induction ops generalizing g with
  | nil => exact ⟨hg, by simp [GlobalStateManager.runOps]⟩
  | cons op rest ih =>
      have hl' : GlobalStateManager.Op.sub l ∉ rest :=
        fun h => hl (List.mem_cons_of_mem _ h)
      cases op with
      | set a =>
          have hstep := ih
            (GlobalStateManager.setState g a).1
            (by simpa [GlobalStateManager.setState] using hg) hl'
          refine ⟨hstep.1, ?_⟩
          intro v hv
          simp only [GlobalStateManager.runOps, GlobalStateManager.applyOp,
            List.mem_append] at hv
          rcases hv with hv | hv
          · simp only [GlobalStateManager.setState, List.mem_map,
              Prod.mk.injEq] at hv
            obtain ⟨x, hx, rfl, -⟩ := hv
            exact hg hx
          · exact hstep.2 v hv
      | sub k =>
          have hk : k ≠ l := by
            intro h
            exact hl (by simp [h])
          have hg' : l ∉ (GlobalStateManager.subscribe g k).listeners := by
            simp only [GlobalStateManager.subscribe, mem_setAdd]
            rintro (h | h)
            · exact hg h
            · exact hk h.symm
          have hstep := ih (GlobalStateManager.subscribe g k) hg' hl'
          refine ⟨hstep.1, ?_⟩
          intro v hv
          simp only [GlobalStateManager.runOps, GlobalStateManager.applyOp,
            List.nil_append] at hv
          exact hstep.2 v hv

/-- Counterexample to C7: the falsy value `0` does not survive
`resetInstance`, because both static constructors seed the instance with
`initialState || {}` — after `resetInstance(0)`, `getInstance().get()` is
the empty object, not `0`. -/
theorem C7_counterexample :
    (GlobalStateManager.getInstance
        (GlobalStateManager.resetInstance (GVal.num 0)) GVal.undef).1.getState =
      GVal.obj [] ∧
    (GlobalStateManager.getInstance
        (GlobalStateManager.resetInstance (GVal.num 0)) GVal.undef).1.getState ≠
      GVal.num 0 := by
  constructor
  · rfl
  · intro h
    simp only [GlobalStateManager.getInstance, GlobalStateManager.resetInstance,
      GlobalStateManager.mkInstance, GlobalStateManager.getState,
      orElseEmptyObj, GVal.falsy] at h
    exact absurd h (by simp)

/-- Claim C7 amended: for every truthy value `x`, after `resetInstance(x)`
the instance returned by `getInstance()` holds `x` (a falsy `x` is
replaced by the empty object default); for every value `x` the fresh
instance starts with no listeners, so a listener subscribed before the
reset is never invoked by subsequent `set` calls on the new instance
unless it re-subscribes. -/
theorem C7_amended (x : GVal) (l : Nat) (ops : List GlobalStateManager.Op)
    (hl : GlobalStateManager.Op.sub l ∉ ops) :
    (x.falsy = false →
      (GlobalStateManager.getInstance
        (GlobalStateManager.resetInstance x) GVal.undef).1.getState = x) ∧
    (GlobalStateManager.getInstance
        (GlobalStateManager.resetInstance x) GVal.undef).1.listeners = [] ∧
    ∀ v, (l, v) ∉
      (GlobalStateManager.runOps
        (GlobalStateManager.getInstance
          (GlobalStateManager.resetInstance x) GVal.undef).1 ops).2 := by
  refine ⟨?_, rfl, ?_⟩
  · intro hx
    simp [GlobalStateManager.getInstance, GlobalStateManager.resetInstance,
      GlobalStateManager.mkInstance, GlobalStateManager.getState,
      orElseEmptyObj, hx]
  · exact (GlobalStateManager.runOps_not_subscribed _ l ops
      (by simp [GlobalStateManager.getInstance, GlobalStateManager.resetInstance,
        GlobalStateManager.mkInstance]) hl).2

/-- Witness for C7: after `resetInstance({count: 0})`, the instance holds
`{count: 0}` with no listeners, and a run of two `set` calls plus a fresh
subscription of listener `9` never invokes the stale listener `3`; after
the falsy reseed `resetInstance(0)` the fresh instance likewise starts
with no listeners and the same run never invokes listener `3`. -/
theorem C7_witness :
    (GVal.obj [("count", GVal.num 0)]).falsy = false ∧
    (GlobalStateManager.Op.sub 3 ∉
      [GlobalStateManager.Op.set (SetStateAction.value (GVal.num 1)),
        GlobalStateManager.Op.sub 9,
        GlobalStateManager.Op.set (SetStateAction.value (GVal.num 2))]) ∧
    ((GlobalStateManager.getInstance
        (GlobalStateManager.resetInstance (GVal.obj [("count", GVal.num 0)]))
        GVal.undef).1.getState = GVal.obj [("count", GVal.num 0)] ∧
      (GlobalStateManager.getInstance
        (GlobalStateManager.resetInstance (GVal.obj [("count", GVal.num 0)]))
        GVal.undef).1.listeners = [] ∧
      ∀ v, ((3 : Nat), v) ∉
        (GlobalStateManager.runOps
          (GlobalStateManager.getInstance
            (GlobalStateManager.resetInstance (GVal.obj [("count", GVal.num 0)]))
            GVal.undef).1
          [GlobalStateManager.Op.set (SetStateAction.value (GVal.num 1)),
            GlobalStateManager.Op.sub 9,
            GlobalStateManager.Op.set (SetStateAction.value (GVal.num 2))]).2) ∧
    ((GlobalStateManager.getInstance
        (GlobalStateManager.resetInstance (GVal.num 0))
        GVal.undef).1.listeners = [] ∧
      ∀ v, ((3 : Nat), v) ∉
        (GlobalStateManager.runOps
          (GlobalStateManager.getInstance
            (GlobalStateManager.resetInstance (GVal.num 0))
            GVal.undef).1
          [GlobalStateManager.Op.set (SetStateAction.value (GVal.num 1)),
            GlobalStateManager.Op.sub 9,
            GlobalStateManager.Op.set (SetStateAction.value (GVal.num 2))]).2) := by
  have htruthy := C7_amended (GVal.obj [("count", GVal.num 0)]) 3
    [GlobalStateManager.Op.set (SetStateAction.value (GVal.num 1)),
      GlobalStateManager.Op.sub 9,
      GlobalStateManager.Op.set (SetStateAction.value (GVal.num 2))]
    (by simp)
  have hfalsy := C7_amended (GVal.num 0) 3
    [GlobalStateManager.Op.set (SetStateAction.value (GVal.num 1)),
      GlobalStateManager.Op.sub 9,
      GlobalStateManager.Op.set (SetStateAction.value (GVal.num 2))]
    (by simp)
  exact ⟨rfl, by simp, ⟨htruthy.1 rfl, htruthy.2.1, htruthy.2.2⟩,
    hfalsy.2.1, hfalsy.2.2⟩

/-! ## C9: subscribe-then-unsubscribe is never notified -/

theorem not_mem_setAdd_erase {ls : List Nat} {l : Nat} (h : ls.Nodup) :
    l ∉ (setAdd ls l).erase l := by
  intro hmem
  exact ((nodup_setAdd h).mem_erase_iff.mp hmem).1 rfl

theorem ComponentStateManager.runSets_events_mem {V : Type}
    (m : ComponentStateManager V) (as : List (SetStateAction V)) :
    ∀ x ∈ (ComponentStateManager.runSets m as).2, x ∈ m.listeners := by
  induction as generalizing m with
  | nil => simp [ComponentStateManager.runSets]
  | cons a as ih =>
      intro x hx
      simp only [ComponentStateManager.runSets, List.mem_append] at hx
      rcases hx with hx | hx
      · simpa [ComponentStateManager.setState] using hx
      · have := ih (ComponentStateManager.setState m a).1 x hx
        simpa [ComponentStateManager.setState] using this

theorem ProxyStateManager.applyOp_shielded (m : ProxyStateManager JVal)
    (l : Nat) (op : ProxyStateManager.Op)
    (h1 : l ∉ m.listeners) (h2 : l ∉ m.pendingNotifications) :
    l ∉ (ProxyStateManager.applyOp m op).1.listeners ∧
      l ∉ (ProxyStateManager.applyOp m op).1.pendingNotifications ∧
      ∀ v, (l, v) ∉ (ProxyStateManager.applyOp m op).2 := by
  obtain ⟨st, ls, ib, pd, hc⟩ := m
  simp only at h1 h2
  cases op with
  | set a =>
      simp only [ProxyStateManager.applyOp, ProxyStateManager.setState]
      by_cases hne : JVal.stringify st ≠
          JVal.stringify (applySetStateAction a st)
      · rw [if_pos hne]
        by_cases hb : ib = false
        · subst hb
          rw [if_pos rfl]
          refine ⟨h1, h2, ?_⟩
          intro v hv
          simp only [ProxyStateManager.notifyListeners, List.mem_map,
            Prod.mk.injEq] at hv
          obtain ⟨x, hx, rfl, -⟩ := hv
          exact h1 hx
        · rw [if_neg hb]
          refine ⟨h1, ?_, by simp⟩
          intro hmem
          simp only [ProxyStateManager.queueAll] at hmem
          rcases foldl_setAdd_mem.mp hmem with h | h
          · exact h2 h
          · exact h1 h
      · rw [if_neg hne]
        exact ⟨h1, h2, by simp⟩
  | write path v =>
      rcases path with - | ⟨p, - | ⟨q, rest⟩⟩
      · exact ⟨h1, h2, by simp [ProxyStateManager.applyOp,
          ProxyStateManager.writePath]⟩
      · cases st with
        | prim n =>
            exact ⟨h1, h2, by simp [ProxyStateManager.applyOp,
              ProxyStateManager.writePath]⟩
        | obj fs =>
            simp only [ProxyStateManager.applyOp, ProxyStateManager.writePath]
            by_cases hne : stringifyOpt (getField fs p) ≠ v.stringify
            · rw [if_pos hne]
              by_cases hb : ib = false
              · subst hb
                simp only [if_true]
                refine ⟨h1, h2, ?_⟩
                intro w hw
                simp only [ProxyStateManager.notifyListeners, List.mem_map,
                  Prod.mk.injEq] at hw
                obtain ⟨x, hx, rfl, -⟩ := hw
                exact h1 hx
              · have hb' : ib = true := by
                  cases ib
                  · exact absurd rfl hb
                  · rfl
                subst hb'
                simp only [Bool.true_eq_false, if_false]
                refine ⟨h1, ?_, by simp⟩
                intro hmem
                simp only [ProxyStateManager.queueAll] at hmem
                rcases foldl_setAdd_mem.mp hmem with h | h
                · exact h2 h
                · exact h1 h
            · rw [if_neg hne]
              exact ⟨h1, h2, by simp⟩
      · cases st with
        | prim n =>
            exact ⟨h1, h2, by simp [ProxyStateManager.applyOp,
              ProxyStateManager.writePath]⟩
        | obj fs =>
            exact ⟨h1, h2, by simp [ProxyStateManager.applyOp,
              ProxyStateManager.writePath]⟩
  | beginBatch =>
      exact ⟨h1, h2, by simp [ProxyStateManager.applyOp,
        ProxyStateManager.beginBatchUpdates]⟩
  | endBatch =>
      simp only [ProxyStateManager.applyOp, endBatchUpdates_eq]
      refine ⟨h1, by simp, ?_⟩
      intro v hv
      simp only [List.mem_map, Prod.mk.injEq] at hv
      obtain ⟨x, hx, rfl, -⟩ := hv
      exact h2 hx

theorem ProxyStateManager.runOps_shielded (m : ProxyStateManager JVal)
    (l : Nat) (ops : List ProxyStateManager.Op)
    (h1 : l ∉ m.listeners) (h2 : l ∉ m.pendingNotifications) :
    ∀ v, (l, v) ∉ (ProxyStateManager.runOps m ops).2 := by
  induction ops generalizing m with
  | nil => simp [ProxyStateManager.runOps]
  | cons op rest ih =>
      intro v hv
      have hstep := ProxyStateManager.applyOp_shielded m l op h1 h2
      simp only [ProxyStateManager.runOps, List.mem_append] at hv
      rcases hv with hv | hv
      · exact hstep.2.2 v hv
      · exact ih (ProxyStateManager.applyOp m op).1 hstep.1 hstep.2.1 v hv

/-- Claim C9: on each container (Plain, Change-Aware, Singleton),
subscribing a listener and immediately invoking the returned unsubscribe
closure leaves the listener out of every notification produced by any
subsequent sequence of state mutations. -/
theorem C9_unsubscribed_silent {V : Type} :
    (∀ (m : ComponentStateManager V) (l : Nat)
        (as : List (SetStateAction V)), m.listeners.Nodup →
      l ∉ (ComponentStateManager.runSets
        (ComponentStateManager.unsubscribe
          (ComponentStateManager.subscribe m l) l) as).2) ∧
    (∀ (m : ProxyStateManager JVal) (l : Nat)
        (ops : List ProxyStateManager.Op),
      m.listeners.Nodup → l ∉ m.pendingNotifications →
      ∀ v, (l, v) ∉ (ProxyStateManager.runOps
        (ProxyStateManager.unsubscribe
          (ProxyStateManager.subscribe m l) l) ops).2) ∧
    (∀ (g : GlobalStateManager) (l : Nat) (as : List (SetStateAction GVal)),
      g.listeners.Nodup →
      ∀ v, (l, v) ∉ (GlobalStateManager.runOps
        (GlobalStateManager.unsubscribe
          (GlobalStateManager.subscribe g l) l)
        (as.map GlobalStateManager.Op.set)).2) := by
  refine ⟨?_, ?_, ?_⟩
  · intro m l as hnd hmem
    have h := ComponentStateManager.runSets_events_mem
      (ComponentStateManager.unsubscribe
        (ComponentStateManager.subscribe m l) l) as l hmem
    simp only [ComponentStateManager.unsubscribe,
      ComponentStateManager.subscribe] at h
    exact not_mem_setAdd_erase hnd h
  · intro m l ops hnd hpend
    refine ProxyStateManager.runOps_shielded _ l ops ?_ ?_
    · simp only [ProxyStateManager.unsubscribe, ProxyStateManager.subscribe]
      exact not_mem_setAdd_erase hnd
    · exact hpend
  · intro g l as hnd
    refine (GlobalStateManager.runOps_not_subscribed _ l _ ?_ ?_).2
    · simp only [GlobalStateManager.unsubscribe, GlobalStateManager.subscribe]
      exact not_mem_setAdd_erase hnd
    · intro h
      simp only [List.mem_map] at h
      obtain ⟨x, -, hx⟩ := h
      exact GlobalStateManager.Op.noConfusion hx

/-- Witness for C9: listener `5` subscribes and immediately unsubscribes
on each container; the Plain Container then runs two sets, the
Change-Aware Container runs a set, a property write and a batch, and the
Singleton runs two sets — `5` is never invoked. -/
theorem C9_witness :
    ([1] : List Nat).Nodup ∧
    ((5 : Nat) ∉ (ComponentStateManager.runSets
        (ComponentStateManager.unsubscribe
          (ComponentStateManager.subscribe
            (⟨(0 : Int), [1]⟩ : ComponentStateManager Int) 5) 5)
        [SetStateAction.value 1, SetStateAction.value 2]).2) ∧
    (∀ v, ((5 : Nat), v) ∉ (ProxyStateManager.runOps
        (ProxyStateManager.unsubscribe
          (ProxyStateManager.subscribe
            (⟨JVal.obj [("a", JVal.prim 0)], [1], false, [], false⟩ :
              ProxyStateManager JVal) 5) 5)
        [ProxyStateManager.Op.beginBatch,
          ProxyStateManager.Op.set (SetStateAction.value (JVal.obj [("a", JVal.prim 1)])),
          ProxyStateManager.Op.write ["a"] (JVal.prim 2),
          ProxyStateManager.Op.endBatch]).2) ∧
    (∀ v, ((5 : Nat), v) ∉ (GlobalStateManager.runOps
        (GlobalStateManager.unsubscribe
          (GlobalStateManager.subscribe
            (⟨GVal.num 0, [1]⟩ : GlobalStateManager) 5) 5)
        ([SetStateAction.value (GVal.num 1),
          SetStateAction.value (GVal.num 2)].map GlobalStateManager.Op.set)).2) :=
  ⟨by decide,
    (C9_unsubscribed_silent (V := Int)).1 ⟨0, [1]⟩ 5
      [SetStateAction.value 1, SetStateAction.value 2] (by decide),
    (C9_unsubscribed_silent (V := Int)).2.1
      ⟨JVal.obj [("a", JVal.prim 0)], [1], false, [], false⟩ 5
      [ProxyStateManager.Op.beginBatch,
        ProxyStateManager.Op.set (SetStateAction.value (JVal.obj [("a", JVal.prim 1)])),
        ProxyStateManager.Op.write ["a"] (JVal.prim 2),
        ProxyStateManager.Op.endBatch] (by decide) (by decide),
    (C9_unsubscribed_silent (V := Int)).2.2 ⟨GVal.num 0, [1]⟩ 5
      [SetStateAction.value (GVal.num 1), SetStateAction.value (GVal.num 2)]
      (by decide)⟩

end Atsman
